import Mathlib

/-!
Verification of the real-time listening pipeline against its specification.

The definitions below are a shallow embedding of the repository's Python
sources:

* `src/producer/tracker.py` — the session tracker (`SpotifyTracker.check_status`);
* `src/processor/hot_path_function.py` — the incremental stats engine
  (`update_user_profile` and its helpers);
* `src/recommender/services.py` — the recommendation ranker
  (`get_recommendation_queue` and its helpers).

Conventions of the embedding:

* Python floats are modelled as rationals (`ℚ`); machine timestamps coming
  from `int(time.time())` are `Nat`.
* Python `None` and falsy values are modelled explicitly: an optional value
  is an `Option`, and a truthiness test on a string checks `≠ ""`.
* A Python dict used as an ordered map (genre affinity, insertion ordered)
  is an association list; updating an existing key keeps its position, a new
  key is appended, exactly like CPython dicts.
* External collaborators (DynamoDB, the Spotify metadata provider, the item
  index loader) appear as explicit inputs: the metadata fetch outcome is an
  `Option TrackMeta` argument, the loaded catalog an `Option Catalog`, and a
  missing stored profile an `Option Profile`.
* Cosine similarity calls `math.sqrt`, which has no exact rational
  counterpart; the ranking pipeline is therefore parameterised by the
  scoring function `score`, and every theorem about the queue logic holds
  for an arbitrary scorer (in particular the real cosine similarity).
-/

namespace RTP

/-! ## Session tracker — `src/producer/tracker.py` -/

/-- The `item` part of a playback snapshot: `track['id']`, `track['name']`. -/
structure TrackItem where
  id : String
  name : String
deriving DecidableEq, Repr

/-- The mutable state of `SpotifyTracker` (`__init__`). -/
structure TrackerState where
  current_track_id : Option String
  current_track_name : Option String
  start_time : ℚ
  min_listen_time : ℚ
deriving DecidableEq, Repr

/-- `SpotifyTracker.__init__`: no track, `start_time = 0`, threshold 30 s. -/
def initTracker : TrackerState :=
  { current_track_id := none, current_track_name := none,
    start_time := 0, min_listen_time := 30 }

/-- The event dict built by `check_status` on a track change. -/
structure TrackEvent where
  event_type : String
  track_id : String
  track_name : Option String
  status : String
  processing_path : String
  duration_listened : Int
  timestamp : Int
deriving DecidableEq, Repr

/-- Python `int()` on a float: truncation toward zero. -/
def pyInt (q : ℚ) : Int :=
  if 0 ≤ q then ⌊q⌋ else ⌈q⌉

/-- `SpotifyTracker.check_status(spotify_data)`.  `data = none` models a
falsy `spotify_data` or a falsy `spotify_data.get('item')`; `now` models
`time.time()`.  Returns the new tracker state and the event (Python returns
the event and mutates `self`). -/
def checkStatus (st : TrackerState) (data : Option TrackItem) (now : ℚ) :
    TrackerState × Option TrackEvent :=
  match data with
  | none => (st, none)
  | some track =>
      let event : Option TrackEvent :=
        match st.current_track_id with
        | none => none
        | some c =>
            if c ≠ "" ∧ track.id ≠ c then
              let duration := now - st.start_time
              let status := if duration < st.min_listen_time then "SKIPPED" else "COMPLETED"
              some { event_type := "track_change"
                     track_id := c
                     track_name := st.current_track_name
                     status := status
                     processing_path :=
                       if status = "SKIPPED" ∨ status = "COMPLETED" then "hot" else "cold"
                     duration_listened := pyInt duration
                     timestamp := pyInt now }
            else none
      let st' : TrackerState :=
        if some track.id ≠ st.current_track_id then
          { st with current_track_id := some track.id
                    current_track_name := some track.name
                    start_time := now }
        else st
      (st', event)

/-- Feeding a sequence of (snapshot, time) observations to the tracker,
collecting every emitted event in order. -/
def runTracker (st : TrackerState) : List (Option TrackItem × ℚ) → TrackerState × List TrackEvent
  | [] => (st, [])
  | (d, t) :: rest =>
      let r1 := checkStatus st d t
      let r2 := runTracker r1.1 rest
      (r2.1, r1.2.toList ++ r2.2)

/-- A snapshot is a track-id transition for the current state when it
reports a track whose id differs from the (truthy) tracked id. -/
def isTransition (st : TrackerState) (data : Option TrackItem) : Bool :=
  match data, st.current_track_id with
  | some track, some c => (c != "") && (track.id != c)
  | _, _ => false

/-- How many track-id transitions a sequence of observations contains,
following the state evolution of `check_status`. -/
def countTransitions (st : TrackerState) : List (Option TrackItem × ℚ) → Nat
  | [] => 0
  | (d, t) :: rest =>
      (if isTransition st d then 1 else 0) + countTransitions (checkStatus st d t).1 rest

/-! ## Incremental stats engine — `src/processor/hot_path_function.py` -/

/-- One entry of a stored `recommendation_queue`, which may hold a bare
track-id string, a dict (whose `track_id` value may be missing — `none` —
or any string), or a value of some other shape. -/
inductive QEntry where
  | strE (s : String)
  | dictE (track_id : Option String)
  | otherE
deriving DecidableEq, Repr

/-- Python `str.strip()`: drop leading and trailing whitespace. -/
def pyStrip (s : String) : String :=
  String.mk (((s.data.dropWhile Char.isWhitespace).reverse.dropWhile Char.isWhitespace).reverse)

/-- Python `str.replace(" ", "_")` — a single-character pattern, hence a
character-wise map. -/
def pyReplaceSpaces (s : String) : String :=
  String.mk (s.data.map (fun c => if c = ' ' then '_' else c))

/-- `normalize_genre_label(label)` (defined both in `hot_path_function.py`
and `services.py`): `label.strip().replace(" ", "_")`. -/
def normalize_genre_label (label : String) : String :=
  pyReplaceSpaces (pyStrip label)

/-- The per-user `audio_profile`: running per-feature averages plus the
sample count.  The fresh profile stores only `{"samples": 0}`; a missing
average is read back as `0` (`stats.get(f"avg_{key}", 0)`), so it is
represented by the field value `0`. -/
structure AudioStats where
  avg_danceability : ℚ
  avg_energy : ℚ
  avg_valence : ℚ
  avg_acousticness : ℚ
  avg_tempo : ℚ
  samples : Nat
deriving DecidableEq, Repr

/-- The audio features of one track as fetched from the metadata provider. -/
structure Features where
  danceability : ℚ
  energy : ℚ
  valence : ℚ
  acousticness : ℚ
  tempo : ℚ
deriving DecidableEq, Repr

/-- `update_audio_profile`: every average is recomputed against the same
pre-increment `samples` value (read once, before any write), then `samples`
is incremented by one.  With `samples : Nat` the guard `(samples + 1) > 0`
of the source is always true. -/
def update_audio_profile (stats : AudioStats) (new_features : Features) : AudioStats :=
  let samples := stats.samples
  { avg_danceability :=
      (stats.avg_danceability * samples + new_features.danceability) / ((samples : ℚ) + 1)
    avg_energy := (stats.avg_energy * samples + new_features.energy) / ((samples : ℚ) + 1)
    avg_valence := (stats.avg_valence * samples + new_features.valence) / ((samples : ℚ) + 1)
    avg_acousticness :=
      (stats.avg_acousticness * samples + new_features.acousticness) / ((samples : ℚ) + 1)
    avg_tempo := (stats.avg_tempo * samples + new_features.tempo) / ((samples : ℚ) + 1)
    samples := samples + 1 }

/-- The `audio_profile` of a fresh profile: `{"samples": 0}`, every average
read as 0. -/
def freshAudioStats : AudioStats :=
  { avg_danceability := 0, avg_energy := 0, avg_valence := 0,
    avg_acousticness := 0, avg_tempo := 0, samples := 0 }

/-- Incrementing key `k` of an insertion-ordered dict of counters:
an existing key keeps its position, a missing key (read as 0) is appended
with count 1 — CPython dict semantics for `d[k] = d.get(k, 0) + 1`. -/
def bumpKey (m : List (String × Nat)) (k : String) : List (String × Nat) :=
  if m.any (fun p => p.1 == k) then
    m.map (fun p => if p.1 = k then (p.1, p.2 + 1) else p)
  else m ++ [(k, 1)]

/-- `update_genre_affinity`: each genre string has its spaces replaced by
underscores (`genre.replace(" ", "_")` — the source does NOT strip), then its
counter is incremented by one, defaulting to 0 when absent. -/
def update_genre_affinity (current_genres : List (String × Nat)) (new_genres : List String) :
    List (String × Nat) :=
  new_genres.foldl (fun acc genre => bumpKey acc (pyReplaceSpaces genre)) current_genres

/-- One entry of `artist_affinity`. -/
structure ArtistEntry where
  artist_id : String
  name : String
  affinity : Nat
  last_played_ts : Nat
deriving DecidableEq, Repr

/-- The artist info dict fetched from the metadata provider (`id`, `name`). -/
structure ArtistInfo where
  id : String
  name : String
deriving DecidableEq, Repr

/-- In-place increment of the artist entry the comprehension-built
`artist_map` points to: the dict maps each `artist_id` to the LAST list
element carrying it, and the `else` branch of `update_artist_affinity`
mutates that element through the shared reference. -/
def bumpLastArtist : List ArtistEntry → String → Nat → List ArtistEntry
  | [], _, _ => []
  | a :: rest, id, now =>
      if rest.any (fun b => b.artist_id == id) then a :: bumpLastArtist rest id now
      else if a.artist_id = id then
        { a with affinity := a.affinity + 1, last_played_ts := now } :: rest
      else a :: rest

/-- `update_artist_affinity`: when the artist is already present, its (last)
entry is incremented in place and its timestamp refreshed; when it is NOT
present, the source builds the new `{artist_id, name, affinity: 1,
last_played_ts}` dict but stores it only into the temporary `artist_map`,
and returns `current_artists` — so the new entry is lost. -/
def update_artist_affinity (current_artists : List ArtistEntry) (new_artists : ArtistInfo)
    (now : Nat) : List ArtistEntry :=
  if current_artists.any (fun a => a.artist_id == new_artists.id) then
    bumpLastArtist current_artists new_artists.id now
  else current_artists

/-- The loop body of `remove_track_from_queue`: keep `item` unless it is the
played track; dict entries compare their `track_id` value, string entries
compare themselves, entries of any other shape are kept. -/
def remove_step (track_id : String) (cleaned : List QEntry) (item : QEntry) : List QEntry :=
  match item with
  | QEntry.dictE t => if t = some track_id then cleaned else cleaned ++ [item]
  | QEntry.strE s => if s = track_id then cleaned else cleaned ++ [item]
  | QEntry.otherE => cleaned ++ [item]

/-- `remove_track_from_queue`: rebuild the queue keeping, in order, every
entry that is not the played track. -/
def remove_track_from_queue (queue : List QEntry) (track_id : String) : List QEntry :=
  queue.foldl (remove_step track_id) []

/-- One entry of `recent_history`. -/
structure HistoryItem where
  track_id : String
  status : String
  ts : Nat
deriving DecidableEq, Repr

/-- The durable per-user profile document (the DynamoDB item).  A key the
source reads through `.get` with a default is represented by a field holding
that default when absent. -/
structure Profile where
  user_id : String
  created_at : Nat
  updated_at : Nat
  last_event_ts : Nat
  audio_profile : AudioStats
  genre_affinity : List (String × Nat)
  artist_affinity : List ArtistEntry
  recent_history : List HistoryItem
  total_tracks_played : Nat
  total_completions : Nat
  total_skips : Nat
  recommendation_queue : List QEntry
  queue_updated_at : Nat
  queue_embedding_version : String
  queue_embedding_ts : Nat
  user_embedding : Option (List ℚ)
  embedding_version : String
  embedding_updated_at : Nat
deriving DecidableEq, Repr

/-- The default item `update_user_profile` starts from when the user has no
stored profile. -/
def freshProfile (user_id : String) (now : Nat) : Profile :=
  { user_id := user_id, created_at := now, updated_at := now, last_event_ts := now,
    audio_profile := freshAudioStats, genre_affinity := [], artist_affinity := [],
    recent_history := [], total_tracks_played := 0, total_completions := 0,
    total_skips := 0, recommendation_queue := [], queue_updated_at := 0,
    queue_embedding_version := "", queue_embedding_ts := 0,
    user_embedding := none, embedding_version := "v1", embedding_updated_at := 0 }

/-- `normalize_min_max`: min-max scaling clamped to `[0, 1]`; degenerate
bounds give 0. -/
def normalize_min_max (value min_value max_value : ℚ) : ℚ :=
  if max_value ≤ min_value then 0
  else max 0 (min 1 ((value - min_value) / (max_value - min_value)))

/-- `genre_affinity.get(genre)` read as a number (`safe_float`, absent → 0). -/
def genre_count (m : List (String × Nat)) (g : String) : ℚ :=
  match m.find? (fun p => p.1 == g) with
  | some p => (p.2 : ℚ)
  | none => 0

/-- The environment-derived configuration of the embedding builder: genre
vocabulary and tempo bounds. -/
structure Config where
  genre_vocab : List String
  tempo_min : ℚ
  tempo_max : ℚ
deriving DecidableEq, Repr

/-- `build_user_embedding` (vector part): the five fixed-order audio
features followed by one normalized count per vocabulary genre.  The
metadata dict the source also returns carries nothing the queue logic reads
beyond the version tag, which `update_user_profile` stores separately. -/
def build_user_embedding (profile : Profile) (genre_vocab : List String)
    (tempo_min tempo_max : ℚ) : List ℚ :=
  let audio := profile.audio_profile
  let audio_vector : List ℚ :=
    [audio.avg_danceability, audio.avg_energy, audio.avg_valence, audio.avg_acousticness,
     normalize_min_max audio.avg_tempo tempo_min tempo_max]
  let total_genre_count : ℚ := (profile.genre_affinity.map (fun p => (p.2 : ℚ))).sum
  let genre_vector : List ℚ := genre_vocab.map (fun g =>
    if 0 < total_genre_count then genre_count profile.genre_affinity g / total_genre_count else 0)
  audio_vector ++ genre_vector

/-- The metadata-provider result `track_metadata` unpacks on success:
audio features, the artist genre list, and the artist info. -/
structure TrackMeta where
  features : Features
  genres : List String
  artist : ArtistInfo
deriving DecidableEq, Repr

/-- `update_user_profile` from the point the profile is in hand: bump the
totals and timestamps, on COMPLETED with successful metadata enrich the
audio/genre/artist stats, on SKIPPED bump the skip counter, then prepend to
the bounded history, consume the played track from the queue, and recompute
the stamped embedding.  `meta` is the metadata fetch outcome (`none` =
failure or empty features). -/
def update_user_profile (cfg : Config) (profile : Profile) (track_id : String)
    (status : String) (meta : Option TrackMeta) (now : Nat) : Profile :=
  let p1 : Profile :=
    { profile with updated_at := now, last_event_ts := now,
                   total_tracks_played := profile.total_tracks_played + 1 }
  let p2 : Profile :=
    if status = "COMPLETED" then
      let pc : Profile := { p1 with total_completions := p1.total_completions + 1 }
      match meta with
      | some m =>
          { pc with
              audio_profile := update_audio_profile pc.audio_profile m.features,
              genre_affinity := update_genre_affinity pc.genre_affinity m.genres,
              artist_affinity := update_artist_affinity pc.artist_affinity m.artist now }
      | none => pc
    else if status = "SKIPPED" then
      { p1 with total_skips := p1.total_skips + 1 }
    else p1
  let p3 : Profile :=
    { p2 with
        recent_history :=
          (({ track_id := track_id, status := status, ts := now } : HistoryItem)
            :: p2.recent_history).take 20,
        recommendation_queue := remove_track_from_queue p2.recommendation_queue track_id }
  { p3 with
      user_embedding :=
        some (build_user_embedding p3 cfg.genre_vocab cfg.tempo_min cfg.tempo_max),
      embedding_version := "v1",
      embedding_updated_at := now }

/-- One hot-path event for a user, as `lambda_handler` hands it to
`update_user_profile` after decoding and field validation; `meta` is the
outcome of the metadata fetch the update will perform. -/
structure PEvent where
  track_id : String
  status : String
  meta : Option TrackMeta
  ts : Nat
deriving DecidableEq, Repr

/-- The batch handler's effect on a single user's profile: its records for
that user are applied in order, each through `update_user_profile`. -/
def processEvents (cfg : Config) (p : Profile) : List PEvent → Profile
  | [] => p
  | e :: rest =>
      processEvents cfg (update_user_profile cfg p e.track_id e.status e.meta e.ts) rest

/-- The default configuration: empty genre vocabulary, tempo bounds 50/200. -/
def cfg0 : Config :=
  { genre_vocab := [], tempo_min := 50, tempo_max := 200 }

/-! ## Recommendation ranker — `src/recommender/services.py` -/

/-- The loop body of `normalize_queue`: a dict entry contributes its truthy
`track_id`, a string entry contributes itself, anything else is dropped. -/
def normalize_step (normalized : List String) (entry : QEntry) : List String :=
  match entry with
  | QEntry.dictE (some t) => if t = "" then normalized else normalized ++ [t]
  | QEntry.dictE none => normalized
  | QEntry.strE s => normalized ++ [s]
  | QEntry.otherE => normalized

/-- `normalize_queue`: a stored queue as a list of track identifiers. -/
def normalize_queue (queue : List QEntry) : List String :=
  queue.foldl normalize_step []

/-- The track id an entry contributes to the normalized queue, if any. -/
def entry_track_id : QEntry → Option String
  | QEntry.strE s => some s
  | QEntry.dictE (some t) => if t = "" then none else some t
  | QEntry.dictE none => none
  | QEntry.otherE => none

/-- Whether a queue entry denotes the given played track (the test
`remove_track_from_queue` removes by). -/
def matches_track (e : QEntry) (track_id : String) : Bool :=
  match e with
  | QEntry.dictE t => t == some track_id
  | QEntry.strE s => s == track_id
  | QEntry.otherE => false

/-- One normalized catalog item (id, feature vector, optional artist). -/
structure Item where
  item_id : String
  vector : List ℚ
  artist_id : Option String
deriving DecidableEq, Repr

/-- The normalized item index payload `load_item_index` returns on
success. -/
structure Catalog where
  items : List Item
  feature_order : List String
deriving DecidableEq, Repr

/-- `get_recent_track_ids`: the truthy track ids of the recent history
(the Python set is only ever used through membership, so a duplicate-free
order is irrelevant; a list of the ids is membership-equivalent). -/
def get_recent_track_ids (profile : Profile) : List String :=
  (profile.recent_history.map HistoryItem.track_id).filter (fun t => t != "")

/-- `rank_items`: score every eligible item (truthy id, not excluded,
matching vector length — the `isinstance(vector, list)` test is vacuous
in the typed embedding), stable-sort descending by score, and return the
top `limit` ids.  `score` abstracts `cosine_similarity`. -/
def rank_items (score : List ℚ → List ℚ → ℚ) (user_vector : List ℚ) (items : List Item)
    (exclude_ids : List String) (limit : Nat) : List String :=
  let scored := items.foldl (fun acc item =>
    if item.item_id = "" ∨ item.item_id ∈ exclude_ids then acc
    else if item.vector.length ≠ user_vector.length then acc
    else acc ++ [(score user_vector item.vector, item.item_id)]) ([] : List (ℚ × String))
  ((scored.mergeSort (fun a b => a.1 ≥ b.1)).take limit).map Prod.snd

/-- The `queue_is_fresh` flag of `get_recommendation_queue`: same embedding
version, queue tag at least as new as the profile embedding, and enough
stored entries. -/
def queue_is_fresh (profile : Profile) (queue_size : Nat) : Bool :=
  (profile.queue_embedding_version == profile.embedding_version)
    && decide (profile.embedding_updated_at ≤ profile.queue_embedding_ts)
    && decide (queue_size ≤ (normalize_queue profile.recommendation_queue).length)

/-- The stored queue as retained after the staleness reset: discarded
entirely when its version tag differs or its timestamp predates the current
embedding. -/
def retained_queue (profile : Profile) : List String :=
  if profile.queue_embedding_version ≠ profile.embedding_version
      ∨ profile.queue_embedding_ts < profile.embedding_updated_at then []
  else normalize_queue profile.recommendation_queue

/-- `get_recommendation_queue`: absent profile → empty queue; fresh stored
queue → returned as-is truncated; otherwise the retained queue is extended
with ranked candidates when a non-empty catalog is available, and returned
unchanged (truncated) when it is not.  Persistence (`update_recommendation_queue`)
is fire-and-forget in the source and does not affect the returned value. -/
def get_recommendation_queue (score : List ℚ → List ℚ → ℚ) (cfg : Config)
    (stored_profile : Option Profile) (catalog : Option Catalog) (queue_size : Nat) :
    List String :=
  match stored_profile with
  | none => []
  | some profile =>
      if queue_is_fresh profile queue_size then
        (normalize_queue profile.recommendation_queue).take queue_size
      else
        let existing_queue := retained_queue profile
        let user_vector : List ℚ :=
          match profile.user_embedding with
          | some v => v
          | none => build_user_embedding profile cfg.genre_vocab cfg.tempo_min cfg.tempo_max
        match catalog with
        | none => existing_queue.take queue_size
        | some index =>
            if index.items = [] then existing_queue.take queue_size
            else
              let exclude_ids := get_recent_track_ids profile ++ existing_queue
              let candidates := rank_items score user_vector index.items exclude_ids
                (max (queue_size * 2) queue_size)
              (existing_queue ++ candidates).take queue_size

/-- A stored profile whose queue of one track id is tagged with the current
embedding version and a timestamp no older than the embedding. -/
def p7 : Profile :=
  { freshProfile "u1" 0 with
      recommendation_queue := [QEntry.strE "x"],
      queue_embedding_version := "v1" }

/-! ## Theorems: session tracker (C4, C5) -/

lemma checkStatus_event_count (st : TrackerState) (d : Option TrackItem) (now : ℚ) :
    ((checkStatus st d now).2).toList.length = if isTransition st d then 1 else 0 := by
  rcases d with _ | track
  · simp [checkStatus, isTransition]
  · rcases h : st.current_track_id with _ | c
    · simp [checkStatus, isTransition, h]
    · by_cases h1 : c = ""
      · simp [checkStatus, isTransition, h, h1]
      · by_cases h2 : track.id = c
        · simp [checkStatus, isTransition, h, h1, h2]
        · simp [checkStatus, isTransition, h, h1, h2]

lemma runTracker_count (obs : List (Option TrackItem × ℚ)) :
    ∀ st : TrackerState, (runTracker st obs).2.length = countTransitions st obs := by
  induction obs with
  | nil => intro st; simp [runTracker, countTransitions]
  | cons p rest ih =>
      intro st
      rcases p with ⟨d, t⟩
      simp only [runTracker, countTransitions, List.length_append,
        checkStatus_event_count, ih]

/-- Claim C4: over any sequence of snapshots the tracker emits exactly one
event per track-id transition (at most one per call, since a call returns at
most one event); the very first observation emits nothing; a snapshot
repeating the currently tracked id emits nothing; and an emitted event
describes the previous track, not the new one. -/
theorem claim_C4 :
    (∀ (st : TrackerState) (obs : List (Option TrackItem × ℚ)),
        (runTracker st obs).2.length = countTransitions st obs) ∧
    (∀ (d : Option TrackItem) (now : ℚ), (checkStatus initTracker d now).2 = none) ∧
    (∀ (st : TrackerState) (track : TrackItem) (now : ℚ),
        st.current_track_id = some track.id → (checkStatus st (some track) now).2 = none) ∧
    (∀ (st : TrackerState) (d : Option TrackItem) (now : ℚ) (e : TrackEvent),
        (checkStatus st d now).2 = some e →
          st.current_track_id = some e.track_id ∧ e.track_name = st.current_track_name) := by
  refine ⟨fun st obs => runTracker_count obs st, ?_, ?_, ?_⟩
  · intro d now
    rcases d with _ | track <;> simp [checkStatus, initTracker]
  · intro st track now h
    simp [checkStatus, h]
  · intro st d now e
    rcases d with _ | track
    · simp [checkStatus]
    · rcases h : st.current_track_id with _ | c
      · simp [checkStatus, h]
      · by_cases h1 : c ≠ "" ∧ track.id ≠ c
        · intro he
          simp only [checkStatus, h, if_pos h1, Option.some.injEq] at he
          subst he
          exact ⟨by simp [h], rfl⟩
        · intro he
          simp [checkStatus, h, if_neg h1] at he

/-- Claim C5: an emitted event's status is SKIPPED exactly when the listened
duration (`now - start_time`, the quantity `check_status` classifies on) is
strictly below `min_listen_time`; a duration at or above the threshold —
including exactly at it — classifies as COMPLETED. -/
theorem claim_C5 (st : TrackerState) (d : Option TrackItem) (now : ℚ) (e : TrackEvent)
    (he : (checkStatus st d now).2 = some e) :
    (e.status = "SKIPPED" ↔ now - st.start_time < st.min_listen_time) ∧
    (st.min_listen_time ≤ now - st.start_time → e.status = "COMPLETED") ∧
    (now - st.start_time = st.min_listen_time → e.status = "COMPLETED") := by
  rcases d with _ | track
  · simp [checkStatus] at he
  · rcases h : st.current_track_id with _ | c
    · simp [checkStatus, h] at he
    · by_cases h1 : c ≠ "" ∧ track.id ≠ c
      · simp only [checkStatus, h, if_pos h1, Option.some.injEq] at he
        have hs : e.status = if now - st.start_time < st.min_listen_time
            then "SKIPPED" else "COMPLETED" := by
          rw [← he]
        by_cases hd : now - st.start_time < st.min_listen_time
        · rw [if_pos hd] at hs
          refine ⟨by simp [hs, hd], fun hge => absurd hd (not_lt.mpr hge), fun heq => ?_⟩
          exact absurd hd (by simp [heq])
        · rw [if_neg hd] at hs
          refine ⟨by simp [hs, hd], fun _ => hs, fun _ => hs⟩
      · simp [checkStatus, h, if_neg h1] at he

/-- Witness for C5 at a concrete boundary input: previous track "a" started
at time 0, a different track arrives at time 30 with `min_listen_time = 30`;
the emitted event is COMPLETED. -/
theorem claim_C5_witness :
    (checkStatus
        { current_track_id := some "a", current_track_name := some "A",
          start_time := 0, min_listen_time := 30 }
        (some { id := "b", name := "B" }) 30).2 =
      some { event_type := "track_change", track_id := "a", track_name := some "A",
             status := "COMPLETED", processing_path := "hot",
             duration_listened := pyInt (30 - 0), timestamp := pyInt 30 } ∧
    ((checkStatus
        { current_track_id := some "a", current_track_name := some "A",
          start_time := 0, min_listen_time := 30 }
        (some { id := "b", name := "B" }) 30).2.map TrackEvent.status) =
      some "COMPLETED" := by
  have he : (checkStatus
      { current_track_id := some "a", current_track_name := some "A",
        start_time := 0, min_listen_time := 30 }
      (some { id := "b", name := "B" }) 30).2 =
      some { event_type := "track_change", track_id := "a", track_name := some "A",
             status := "COMPLETED", processing_path := "hot",
             duration_listened := pyInt (30 - 0), timestamp := pyInt 30 } := by
    have hne1 : ("a" : String) ≠ "" := by decide
    have hne2 : ("b" : String) ≠ "a" := by decide
    have hd : ¬((30 : ℚ) - 0 < 30) := by norm_num
    simp only [checkStatus]
    norm_num [hne1, hne2, hd]
  refine ⟨he, ?_⟩
  have h := claim_C5
      { current_track_id := some "a", current_track_name := some "A",
        start_time := 0, min_listen_time := 30 }
      (some { id := "b", name := "B" }) 30 _ he
  have hc := h.2.2 (by norm_num)
  rw [he]
  simp [hc]

/-! ## Theorems: artist affinity (C1) and genre affinity (C9) -/

/-- Claim C1, evaluated at the failing input: for an artist not yet in the
list, `update_artist_affinity` returns the list unchanged — the freshly
built `{artist_id, name, affinity 1, last_played_ts}` entry is lost in the
temporary `artist_map` and never appended.  For an artist already present
the entry IS incremented in place with a refreshed timestamp, in place and
in order, as the claim describes. -/
theorem claim_C1_thm :
    update_artist_affinity [] { id := "a1", name := "Artist X" } 100 = [] ∧
    update_artist_affinity
        [{ artist_id := "a0", name := "Artist W", affinity := 3, last_played_ts := 40 },
         { artist_id := "a1", name := "Artist X", affinity := 1, last_played_ts := 50 }]
        { id := "a1", name := "Artist X" } 100 =
      [{ artist_id := "a0", name := "Artist W", affinity := 3, last_played_ts := 40 },
       { artist_id := "a1", name := "Artist X", affinity := 2, last_played_ts := 100 }] := by
  constructor
  · rfl
  · decide

/-- Claim C9, evaluated at the failing input: the genre `" rock"` (leading
space) is counted under the key `"_rock"` — `update_genre_affinity` only
replaces spaces with underscores and never strips — whereas the trim-then-
replace normalization the claim describes (and `normalize_genre_label` in
the same source file implements) yields `"rock"`. -/
theorem claim_C9_thm :
    update_genre_affinity [] [" rock"] = [("_rock", 1)] ∧
    normalize_genre_label " rock" = "rock" ∧
    update_genre_affinity (update_genre_affinity [] [" rock"]) ["rock"] =
      [("_rock", 1), ("rock", 1)] := by
  refine ⟨by decide, by decide, by decide⟩

/-! ## Theorems: totals invariant (C2) -/

lemma update_user_profile_totals (cfg : Config) (p : Profile) (tid status : String)
    (meta : Option TrackMeta) (now : Nat) (hs : status = "COMPLETED" ∨ status = "SKIPPED")
    (hp : p.total_tracks_played = p.total_completions + p.total_skips) :
    (update_user_profile cfg p tid status meta now).total_tracks_played =
      (update_user_profile cfg p tid status meta now).total_completions +
        (update_user_profile cfg p tid status meta now).total_skips := by
  have hcs : ("COMPLETED" : String) ≠ "SKIPPED" := by decide
  rcases hs with h | h
  · subst h
    rcases meta with _ | m <;> simp [update_user_profile] <;> omega
  · subst h
    simp [update_user_profile, hcs.symm]
    omega

lemma processEvents_totals (cfg : Config) :
    ∀ (evs : List PEvent) (p : Profile),
      (∀ e ∈ evs, e.status = "COMPLETED" ∨ e.status = "SKIPPED") →
      p.total_tracks_played = p.total_completions + p.total_skips →
      (processEvents cfg p evs).total_tracks_played =
        (processEvents cfg p evs).total_completions + (processEvents cfg p evs).total_skips := by
  intro evs
  induction evs with
  | nil => intro p _ hp; simpa [processEvents] using hp
  | cons e rest ih =>
      intro p hs hp
      simp only [processEvents]
      exact ih _ (fun x hx => hs x (List.mem_cons_of_mem e hx))
        (update_user_profile_totals cfg p e.track_id e.status e.meta e.ts
          (hs e (List.mem_cons_self e rest)) hp)

/-- Claim C2: starting from any profile satisfying the totals invariant (in
particular the fresh default profile), applying any batch of hot-path events
whose statuses are COMPLETED or SKIPPED keeps, after each update, the
invariant `total_tracks_played = total_completions + total_skips`. -/
theorem claim_C2 (cfg : Config) (p : Profile) (evs : List PEvent)
    (hp : p.total_tracks_played = p.total_completions + p.total_skips)
    (hs : ∀ e ∈ evs, e.status = "COMPLETED" ∨ e.status = "SKIPPED") :
    ∀ n : Nat,
      (processEvents cfg p (evs.take n)).total_tracks_played =
        (processEvents cfg p (evs.take n)).total_completions +
          (processEvents cfg p (evs.take n)).total_skips := by
  intro n
  exact processEvents_totals cfg (evs.take n) p
    (fun e he => hs e ((evs.take_sublist n).subset he)) hp

/-- Witness for C2 at a concrete input: a fresh profile and the two-event
batch [COMPLETED (metadata failed), SKIPPED]; after both prefixes the
invariant holds. -/
theorem claim_C2_witness :
    (processEvents cfg0 (freshProfile "u1" 0)
        (([{ track_id := "t1", status := "COMPLETED", meta := none, ts := 5 },
           { track_id := "t2", status := "SKIPPED", meta := none, ts := 9 }] :
          List PEvent).take 2)).total_tracks_played =
      (processEvents cfg0 (freshProfile "u1" 0)
        (([{ track_id := "t1", status := "COMPLETED", meta := none, ts := 5 },
           { track_id := "t2", status := "SKIPPED", meta := none, ts := 9 }] :
          List PEvent).take 2)).total_completions +
        (processEvents cfg0 (freshProfile "u1" 0)
          (([{ track_id := "t1", status := "COMPLETED", meta := none, ts := 5 },
             { track_id := "t2", status := "SKIPPED", meta := none, ts := 9 }] :
            List PEvent).take 2)).total_skips := by
  exact claim_C2 cfg0 (freshProfile "u1" 0)
    [{ track_id := "t1", status := "COMPLETED", meta := none, ts := 5 },
     { track_id := "t2", status := "SKIPPED", meta := none, ts := 9 }]
    rfl (by decide) 2

/-! ## Theorems: sample counter (C3) -/

/-- Counterexample to C3 as stated: on a COMPLETED event whose metadata
fetch fails (`meta = none`), `audio_profile.samples` does NOT increase by
one — it stays unchanged, because `update_audio_profile` only runs when the
fetch succeeds. -/
theorem claim_C3_cex :
    ¬ ((update_user_profile cfg0 (freshProfile "u1" 0) "t1" "COMPLETED" none 5).audio_profile.samples
        = (freshProfile "u1" 0).audio_profile.samples + 1) := by
  decide

lemma update_user_profile_samples (cfg : Config) (p : Profile) (tid status : String)
    (meta : Option TrackMeta) (now : Nat) :
    (update_user_profile cfg p tid status meta now).audio_profile.samples =
      p.audio_profile.samples +
        (if status = "COMPLETED" ∧ meta.isSome = true then 1 else 0) := by
  by_cases h : status = "COMPLETED"
  · subst h
    rcases meta with _ | m
    · simp [update_user_profile]
    · simp [update_user_profile, update_audio_profile]
  · rcases meta with _ | m <;> by_cases h2 : status = "SKIPPED" <;>
      simp [update_user_profile, h, h2]

/-- Claim C3 amended: `audio_profile.samples` increases by exactly one on a
COMPLETED event whose metadata fetch succeeds and is unchanged otherwise
(SKIPPED, unknown status, or COMPLETED with a failed fetch); hence after any
replayed event sequence, `samples` has grown by exactly the number of
COMPLETED events with successful metadata. -/
theorem claim_C3_thm :
    ∀ (cfg : Config) (p : Profile) (evs : List PEvent),
      (processEvents cfg p evs).audio_profile.samples =
        p.audio_profile.samples +
          evs.countP (fun e => decide (e.status = "COMPLETED" ∧ e.meta.isSome = true)) := by
  intro cfg p evs
  induction evs generalizing p with
  | nil => simp [processEvents]
  | cons e rest ih =>
      simp only [processEvents, List.countP_cons]
      rw [ih, update_user_profile_samples]
      by_cases hc : e.status = "COMPLETED" ∧ e.meta.isSome = true
      · simp only [decide_eq_true_eq, if_pos hc]
        omega
      · simp only [decide_eq_true_eq, if_neg hc]
        omega

/-! ## Theorems: running averages (C6) -/

lemma audio_fold_samples :
    ∀ (vs : List Features) (stats : AudioStats),
      (vs.foldl update_audio_profile stats).samples = stats.samples + vs.length := by
  intro vs
  induction vs with
  | nil => intro stats; simp
  | cons f rest ih =>
      intro stats
      have h := ih (update_audio_profile stats f)
      simp only [List.foldl_cons, List.length_cons, h]
      show stats.samples + 1 + rest.length = stats.samples + (rest.length + 1)
      omega

lemma audio_fold_feature (g : Features → ℚ) (sel : AudioStats → ℚ)
    (hsel : ∀ (stats : AudioStats) (f : Features),
      sel (update_audio_profile stats f) =
        (sel stats * stats.samples + g f) / ((stats.samples : ℚ) + 1)) :
    ∀ (vs : List Features) (stats : AudioStats),
      sel (vs.foldl update_audio_profile stats) * ((stats.samples : ℚ) + vs.length) =
        sel stats * stats.samples + (vs.map g).sum := by
  intro vs
  induction vs with
  | nil => intro stats; simp
  | cons f rest ih =>
      intro stats
      have hns : ((stats.samples : ℚ) + 1) ≠ 0 := by positivity
      have h1 := ih (update_audio_profile stats f)
      rw [hsel] at h1
      have hsamp : (update_audio_profile stats f).samples = stats.samples + 1 := rfl
      rw [hsamp] at h1
      push_cast at h1
      rw [div_mul_cancel₀ _ hns] at h1
      simp only [List.foldl_cons, List.map_cons, List.sum_cons, List.length_cons]
      push_cast
      linear_combination h1

/-- Claim C6: each feature average is recomputed as
`(old_avg * samples + new_value) / (samples + 1)` against the same
pre-increment `samples`, which is then incremented by exactly one; and
applying N successive enriched COMPLETED updates with values v1..vN to a
fresh audio profile makes each average the exact arithmetic mean of
v1..vN. -/
theorem claim_C6 :
    (∀ (stats : AudioStats) (f : Features),
        (update_audio_profile stats f).avg_danceability =
          (stats.avg_danceability * stats.samples + f.danceability) / ((stats.samples : ℚ) + 1) ∧
        (update_audio_profile stats f).avg_energy =
          (stats.avg_energy * stats.samples + f.energy) / ((stats.samples : ℚ) + 1) ∧
        (update_audio_profile stats f).avg_valence =
          (stats.avg_valence * stats.samples + f.valence) / ((stats.samples : ℚ) + 1) ∧
        (update_audio_profile stats f).avg_acousticness =
          (stats.avg_acousticness * stats.samples + f.acousticness) / ((stats.samples : ℚ) + 1) ∧
        (update_audio_profile stats f).avg_tempo =
          (stats.avg_tempo * stats.samples + f.tempo) / ((stats.samples : ℚ) + 1) ∧
        (update_audio_profile stats f).samples = stats.samples + 1) ∧
    (∀ vs : List Features, vs ≠ [] →
        (vs.foldl update_audio_profile freshAudioStats).samples = vs.length ∧
        (vs.foldl update_audio_profile freshAudioStats).avg_danceability =
          (vs.map Features.danceability).sum / (vs.length : ℚ) ∧
        (vs.foldl update_audio_profile freshAudioStats).avg_energy =
          (vs.map Features.energy).sum / (vs.length : ℚ) ∧
        (vs.foldl update_audio_profile freshAudioStats).avg_valence =
          (vs.map Features.valence).sum / (vs.length : ℚ) ∧
        (vs.foldl update_audio_profile freshAudioStats).avg_acousticness =
          (vs.map Features.acousticness).sum / (vs.length : ℚ) ∧
        (vs.foldl update_audio_profile freshAudioStats).avg_tempo =
          (vs.map Features.tempo).sum / (vs.length : ℚ)) := by
  constructor
  · intro stats f
    exact ⟨rfl, rfl, rfl, rfl, rfl, rfl⟩
  · intro vs hvs
    have hlen : vs.length ≠ 0 := fun h => hvs (List.length_eq_zero.mp h)
    have hlenQ : ((vs.length : ℚ)) ≠ 0 := Nat.cast_ne_zero.mpr hlen
    have hbase : ∀ (g : Features → ℚ) (sel : AudioStats → ℚ),
        (∀ (stats : AudioStats) (f : Features),
          sel (update_audio_profile stats f) =
            (sel stats * stats.samples + g f) / ((stats.samples : ℚ) + 1)) →
        sel freshAudioStats = 0 →
        sel (vs.foldl update_audio_profile freshAudioStats) = (vs.map g).sum / (vs.length : ℚ) := by
      intro g sel hsel hzero
      have h := audio_fold_feature g sel hsel vs freshAudioStats
      have hsz : (freshAudioStats.samples : ℚ) = 0 := by norm_num [freshAudioStats]
      rw [hsz, hzero] at h
      simp only [zero_add, zero_mul] at h
      exact (eq_div_iff hlenQ).mpr h
    refine ⟨?_, ?_, ?_, ?_, ?_, ?_⟩
    · have h := audio_fold_samples vs freshAudioStats
      simpa [freshAudioStats] using h
    · exact hbase Features.danceability AudioStats.avg_danceability (fun _ _ => rfl) rfl
    · exact hbase Features.energy AudioStats.avg_energy (fun _ _ => rfl) rfl
    · exact hbase Features.valence AudioStats.avg_valence (fun _ _ => rfl) rfl
    · exact hbase Features.acousticness AudioStats.avg_acousticness (fun _ _ => rfl) rfl
    · exact hbase Features.tempo AudioStats.avg_tempo (fun _ _ => rfl) rfl

/-! ## Theorems: heterogeneous queue entries (C10) -/

lemma normalize_queue_aux :
    ∀ (q : List QEntry) (acc : List String),
      q.foldl normalize_step acc = acc ++ q.filterMap entry_track_id := by
  intro q
  induction q with
  | nil => intro acc; simp
  | cons e rest ih =>
      intro acc
      cases e with
      | strE s => simp [normalize_step, entry_track_id, ih]
      | dictE t =>
          cases t with
          | none => simp [normalize_step, entry_track_id, ih]
          | some s =>
              by_cases h : s = ""
              · simp [normalize_step, entry_track_id, h, ih]
              · simp [normalize_step, entry_track_id, h, ih]
      | otherE => simp [normalize_step, entry_track_id, ih]

lemma remove_track_aux (t : String) :
    ∀ (q : List QEntry) (acc : List QEntry),
      q.foldl (remove_step t) acc = acc ++ q.filter (fun e => !(matches_track e t)) := by
  intro q
  induction q with
  | nil => intro acc; simp
  | cons e rest ih =>
      intro acc
      cases e with
      | strE s =>
          by_cases h : s = t
          · simp [remove_step, matches_track, h, ih, List.filter_cons]
          · simp [remove_step, matches_track, h, ih, List.filter_cons]
      | dictE o =>
          by_cases h : o = some t
          · simp [remove_step, matches_track, h, ih, List.filter_cons]
          · simp [remove_step, matches_track, h, ih, List.filter_cons]
      | otherE => simp [remove_step, matches_track, ih, List.filter_cons]

/-- Claim C10: queue normalization extracts the track id of every bare
string entry and of every dict entry with a truthy `track_id`, dropping
everything else, in order; and consumed-recommendation removal deletes
exactly the entries (of either shape) denoting the played track, keeping
every other entry — other shapes included — in their relative order. -/
theorem claim_C10 :
    (∀ q : List QEntry, normalize_queue q = q.filterMap entry_track_id) ∧
    (∀ (q : List QEntry) (t : String),
        remove_track_from_queue q t = q.filter (fun e => !(matches_track e t))) ∧
    (∀ (q : List QEntry) (t : String) (e : QEntry),
        e ∈ remove_track_from_queue q t → matches_track e t = false) ∧
    (∀ (q : List QEntry) (t : String), (remove_track_from_queue q t).Sublist q) := by
  have h1 : ∀ q : List QEntry, normalize_queue q = q.filterMap entry_track_id := by
    intro q
    simpa using normalize_queue_aux q []
  have h2 : ∀ (q : List QEntry) (t : String),
      remove_track_from_queue q t = q.filter (fun e => !(matches_track e t)) := by
    intro q t
    simpa using remove_track_aux t q []
  refine ⟨h1, h2, ?_, ?_⟩
  · intro q t e he
    rw [h2] at he
    have hm := List.mem_filter.mp he
    simpa using hm.2
  · intro q t
    rw [h2]
    exact List.filter_sublist q

/-! ## Theorems: queue freshness and fallback (C7, C8) -/

lemma filterMap_strE (ids : List String) :
    ids.filterMap (fun s => entry_track_id (QEntry.strE s)) = ids := by
  induction ids with
  | nil => rfl
  | cons s rest ih => simp [entry_track_id, ih]

lemma normalize_map_strE (ids : List String) :
    normalize_queue (ids.map QEntry.strE) = ids := by
  have h := normalize_queue_aux (ids.map QEntry.strE) []
  simp only [normalize_queue, h, List.nil_append, List.filterMap_map]
  simpa [Function.comp] using filterMap_strE ids

/-- Claim C7: the stored queue is reused as-is (truncated to `queue_size`)
exactly when its version tag matches the profile's embedding version, its
timestamp is at least `embedding_updated_at`, and it holds at least
`queue_size` entries; and when the tag's version differs or its timestamp
predates the current embedding, the stored queue is discarded entirely —
`get_queue` behaves exactly as if the stored queue were empty, however many
entries it held. -/
theorem claim_C7 (score : List ℚ → List ℚ → ℚ) (cfg : Config) (p : Profile)
    (catalog : Option Catalog) (qsize : Nat) (ids : List String)
    (hq : p.recommendation_queue = ids.map QEntry.strE) :
    (queue_is_fresh p qsize = true ↔
      (p.queue_embedding_version = p.embedding_version ∧
       p.embedding_updated_at ≤ p.queue_embedding_ts ∧
       qsize ≤ ids.length)) ∧
    (queue_is_fresh p qsize = true →
      get_recommendation_queue score cfg (some p) catalog qsize = ids.take qsize) ∧
    ((p.queue_embedding_version ≠ p.embedding_version ∨
        p.queue_embedding_ts < p.embedding_updated_at) →
      get_recommendation_queue score cfg (some p) catalog qsize =
        get_recommendation_queue score cfg (some { p with recommendation_queue := [] })
          catalog qsize) := by
  have hnq : normalize_queue p.recommendation_queue = ids := by
    rw [hq, normalize_map_strE]
  have hiff : queue_is_fresh p qsize = true ↔
      (p.queue_embedding_version = p.embedding_version ∧
       p.embedding_updated_at ≤ p.queue_embedding_ts ∧
       qsize ≤ ids.length) := by
    simp [queue_is_fresh, hnq, and_assoc]
  refine ⟨hiff, ?_, ?_⟩
  · intro hf
    simp [get_recommendation_queue, hf, hnq]
  · intro hstale
    have hne : queue_is_fresh p qsize = false := by
      cases hb : queue_is_fresh p qsize
      · rfl
      · exfalso
        have hc := hiff.mp hb
        rcases hstale with h | h
        · exact h hc.1
        · exact (not_le.mpr h) hc.2.1
    have hne' : queue_is_fresh { p with recommendation_queue := [] } qsize = false := by
      cases hb : queue_is_fresh { p with recommendation_queue := [] } qsize
      · rfl
      · exfalso
        have hc : p.queue_embedding_version = p.embedding_version ∧
            p.embedding_updated_at ≤ p.queue_embedding_ts := by
          have hb' := hb
          simp [queue_is_fresh, and_assoc] at hb'
          exact ⟨hb'.1, hb'.2.1⟩
        rcases hstale with h | h
        · exact h hc.1
        · exact (not_le.mpr h) hc.2
    have hr : retained_queue p = [] := by
      rw [retained_queue, if_pos hstale]
    have hr' : retained_queue { p with recommendation_queue := [] } = [] := by
      rw [retained_queue, if_pos]
      exact hstale
    simp only [get_recommendation_queue, hne, hne', Bool.false_eq_true, if_false, hr, hr']
    rfl

/-- Witness for C7 at a concrete input: a profile whose one-entry stored
queue is tagged with the current embedding version and a non-stale
timestamp is returned as-is for `queue_size = 1`, whatever the catalog
(here: unavailable). -/
theorem claim_C7_witness :
    get_recommendation_queue (fun _ _ => 0) cfg0 (some p7) none 1 = ["x"] := by
  have h := (claim_C7 (fun _ _ => 0) cfg0 p7 none 1 ["x"] rfl).2.1 (by decide)
  simpa using h

/-- Claim C8: `get_queue` is total and best-effort — an absent profile
yields the empty queue, and an unavailable or empty catalog yields the
retained (possibly stale-reset or partial) stored queue truncated to
`queue_size`, for every profile and scorer. -/
theorem claim_C8 :
    (∀ (score : List ℚ → List ℚ → ℚ) (cfg : Config) (catalog : Option Catalog) (qsize : Nat),
        get_recommendation_queue score cfg none catalog qsize = []) ∧
    (∀ (score : List ℚ → List ℚ → ℚ) (cfg : Config) (p : Profile) (qsize : Nat),
        get_recommendation_queue score cfg (some p) none qsize =
          (retained_queue p).take qsize) ∧
    (∀ (score : List ℚ → List ℚ → ℚ) (cfg : Config) (p : Profile) (fo : List String)
        (qsize : Nat),
        get_recommendation_queue score cfg (some p)
            (some { items := [], feature_order := fo }) qsize =
          (retained_queue p).take qsize) := by
  have hfreshkeep : ∀ (p : Profile) (qsize : Nat), queue_is_fresh p qsize = true →
      retained_queue p = normalize_queue p.recommendation_queue := by
    intro p qsize hb
    have hc := by simpa [queue_is_fresh, and_assoc] using hb
    rw [retained_queue, if_neg]
    intro hcon
    rcases hcon with h | h
    · exact h hc.1
    · exact (not_le.mpr h) hc.2.1
  refine ⟨fun _ _ _ _ => rfl, ?_, ?_⟩
  · intro score cfg p qsize
    cases hb : queue_is_fresh p qsize
    · simp [get_recommendation_queue, hb]
    · simp [get_recommendation_queue, hb, hfreshkeep p qsize hb]
  · intro score cfg p fo qsize
    cases hb : queue_is_fresh p qsize
    · simp [get_recommendation_queue, hb]
    · simp [get_recommendation_queue, hb, hfreshkeep p qsize hb]

end RTP
